import Mathlib

/-!
Shallow embedding of the credibility-scoring core of the `my-backend`
repository (files `model.py` and `cache.py`), together with theorems that
settle the frozen claims about its specification.

Conventions of the embedding:
* Python strings are modelled as `List Char` (ASCII fragment).
* Python floats are modelled as `ℚ`; `int(x)` is truncation toward zero,
  `round(x, 3)` is round-half-to-even at three decimals.
* Python dicts returned by the analysis are modelled by the record
  `ScoreResult`; a field of type `Option _` with value `none` models a key
  that is absent from the dict.
* The five compiled regular expressions of the signal detector are
  abstracted as a parameter `rules : List (String × (List Char → Bool))`
  pairing each rule identifier with its matcher; the keyword half of the
  detector is embedded concretely.
* The Redis store is modelled as an association list keyed by the
  sanitized text (the MD5 key derivation is injective on the trusted
  store, so keying directly by the text is faithful).
-/

namespace FakeNews

/-- Python whitespace class `\s` on the ASCII fragment. -/
def isPyWS (c : Char) : Bool :=
  c = ' ' || c = '\t' || c = '\n' || c = '\r' || c = '\x0b' || c = '\x0c'

/-- Python `int()` on a float: truncation toward zero. -/
def pyTrunc (x : ℚ) : ℤ :=
  if 0 ≤ x then ⌊x⌋ else ⌈x⌉

/-- Python `round()` to an integer: round half to even. -/
def roundHalfEven (x : ℚ) : ℤ :=
  let f := ⌊x⌋
  let r := x - (f : ℚ)
  if r < 1/2 then f
  else if 1/2 < r then f + 1
  else if f % 2 = 0 then f else f + 1

/-- Python `round(x, 3)`. -/
def round3 (x : ℚ) : ℚ := (roundHalfEven (x * 1000) : ℚ) / 1000

/-- The result dict of `analyze_text` / `_fallback_analysis`.
`none` in an `Option` field models an absent key. -/
structure ScoreResult where
  error : Option String := none
  score : ℤ
  label : String
  reason : String
  model_confidence : Option (Option ℚ) := none
  patterns_detected : Option ℕ := none
  text_length : Option ℕ := none
  fallback_mode : Option Bool := none
deriving DecidableEq, Repr

/-! ## Signal detector (`FakeNewsDetector._detect_suspicious_patterns`) -/

/-- `self.suspicious_keywords` from `model.py`. -/
def suspicious_keywords : List String :=
  ["conspiracy", "cover up", "fake news", "hoax", "lies",
   "mainstream media", "sheeple", "wake up", "truth seekers",
   "government lies", "big pharma", "deep state", "illuminati",
   "vaccine autism", "5g coronavirus", "flat earth", "moon landing fake"]

/-- `pat` matches at the head of `s` (case-sensitive); on success returns
the remainder of `s` after the match. -/
def stripPrefixAt : List Char → List Char → Option (List Char)
  | [], s => some s
  | _ :: _, [] => none
  | p :: ps, c :: cs => if c = p then stripPrefixAt ps cs else none

/-- Python `pat in s` (case-sensitive substring test). -/
def hasSubstr (pat : List Char) : List Char → Bool
  | [] => (stripPrefixAt pat []).isSome
  | c :: rest => (stripPrefixAt pat (c :: rest)).isSome || hasSubstr pat rest

/-- `FakeNewsDetector._detect_suspicious_patterns`: keyword substring
matches on the lowered text, then regex-rule matches (abstracted by
`rules`), returning `(len(detected) > 0, detected)`. -/
def detect_suspicious_patterns (rules : List (String × (List Char → Bool)))
    (text : List Char) : Bool × List String :=
  let text_lower := text.map Char.toLower
  let kw := (suspicious_keywords.filter
      (fun k => hasSubstr k.toList text_lower)).map (fun k => "keyword_match:" ++ k)
  let pats := (rules.filter (fun r => r.2 text_lower)).map
      (fun r => "pattern_match:" ++ r.1)
  let detected := kw ++ pats
  (detected.length > 0, detected)

/-! ## Fusion (`FakeNewsDetector._calculate_credibility_score`) -/

/-- `FakeNewsDetector._calculate_credibility_score`. -/
def calculate_credibility_score (model_score : ℚ) (suspicious_detected : Bool)
    (pattern_count : ℕ) : ℤ × String :=
  let base_score := pyTrunc (model_score * 100)
  let base_score :=
    if suspicious_detected then base_score + min ((pattern_count : ℤ) * 10) 30
    else base_score
  let final_score := max 0 (min 100 base_score)
  let label :=
    if final_score < 30 then "reliable"
    else if final_score < 70 then "suspicious"
    else "fake"
  (final_score, label)

/-! ## Fallback path (`FakeNewsDetector._fallback_analysis`) -/

/-- `FakeNewsDetector._fallback_analysis`. -/
def fallback_analysis (rules : List (String × (List Char → Bool)))
    (text : List Char) : ScoreResult :=
  let d := detect_suspicious_patterns rules text
  let suspicious_detected := d.1
  let patterns := d.2
  if suspicious_detected then
    let score : ℤ := min (60 + (patterns.length : ℤ) * 10) 90
    { score := score
      label := if score < 80 then "suspicious" else "fake"
      reason := "fallback_pattern_detection:" ++ String.intercalate "," (patterns.take 3)
      model_confidence := some none
      patterns_detected := some patterns.length
      text_length := some text.length
      fallback_mode := some true }
  else
    { score := 20
      label := "reliable"
      reason := "fallback_low_risk"
      model_confidence := some none
      patterns_detected := some patterns.length
      text_length := some text.length
      fallback_mode := some true }

/-! ## Sanitizer (`FakeNewsDetector._sanitize_text`) -/

/-- Scan for the next `>`; on success return the remainder after it. -/
def splitAtGt : List Char → Option (List Char)
  | [] => none
  | c :: rest => if c = '>' then some rest else splitAtGt rest

/-- Fuelled worker for tag removal; the fuel (initially the length of the
input) only serves to make the recursion structural and is never
exhausted. -/
def removeTagsGo : ℕ → List Char → List Char
  | _, [] => []
  | 0, s => s
  | n + 1, c :: rest =>
    if c = '<' then
      match splitAtGt rest with
      | some rest' => removeTagsGo n rest'
      | none => c :: rest
    else c :: removeTagsGo n rest

/-- `re.sub(r'<[^>]*>', '', text)`: each `<` opens a removal that extends
to the first following `>`; a `<` with no later `>` stays (no match can
start there or later). -/
def removeTags (s : List Char) : List Char := removeTagsGo s.length s

/-- Case-insensitive match of the (lowercase) pattern at the head of `s`;
on success returns the remainder of `s` after the match. -/
def stripPrefixCI : List Char → List Char → Option (List Char)
  | [], s => some s
  | _ :: _, [] => none
  | p :: ps, c :: cs => if c.toLower = p then stripPrefixCI ps cs else none

/-- Fuelled worker for case-insensitive removal of every occurrence of the
pattern, scanning left to right over non-overlapping matches. -/
def removeAllCIGo (pat : List Char) : ℕ → List Char → List Char
  | _, [] => []
  | 0, s => s
  | n + 1, c :: rest =>
    match stripPrefixCI pat (c :: rest) with
    | some rest' => removeAllCIGo pat n rest'
    | none => c :: removeAllCIGo pat n rest

/-- `re.sub(pat, '', s, flags=re.IGNORECASE)` for a literal pattern. -/
def removeAllCI (pat : List Char) (s : List Char) : List Char :=
  removeAllCIGo pat s.length s

/-- Decidable test for a case-insensitive occurrence of `pat` in `s`. -/
def hasOccCI (pat : List Char) : List Char → Bool
  | [] => (stripPrefixCI pat []).isSome
  | c :: rest => (stripPrefixCI pat (c :: rest)).isSome || hasOccCI pat rest

/-- Worker for `re.sub(r'\s+', ' ', text)`: the flag records whether the
previous character belonged to a whitespace run already emitted as one
space. -/
def collapseWSAux : Bool → List Char → List Char
  | _, [] => []
  | prevWS, c :: rest =>
    if isPyWS c then
      if prevWS then collapseWSAux true rest
      else ' ' :: collapseWSAux true rest
    else c :: collapseWSAux false rest

/-- `re.sub(r'\s+', ' ', text)`. -/
def collapseWS (s : List Char) : List Char := collapseWSAux false s

/-- Python `str.strip()` on the ASCII fragment. -/
def pyStrip (s : List Char) : List Char :=
  ((s.dropWhile isPyWS).reverse.dropWhile isPyWS).reverse

/-- The literal pattern `javascript:`. -/
def jsPat : List Char := "javascript:".toList

/-- The literal pattern `data:`. -/
def dataPat : List Char := "data:".toList

/-- `FakeNewsDetector._sanitize_text`: tag stripping, scheme removal,
truncation to 10000 characters, whitespace collapsing and trimming. -/
def sanitize_text (text : List Char) : List Char :=
  if text = [] then []
  else
    pyStrip (collapseWS
      ((removeAllCI dataPat (removeAllCI jsPat (removeTags text))).take 10000))

/-- The raw request value: `none` models Python `None` or a non-string
value, which `_sanitize_text` maps to the empty string. -/
def sanitize_input : Option (List Char) → List Char
  | none => []
  | some t => sanitize_text t

/-! ## Cache (`RedisCache`, restricted to the model-prediction namespace) -/

/-- Per-call behaviour of the external collaborators: whether a load
attempt would succeed, and what the classifier pipeline returns
(`none` models the pipeline call raising). -/
structure CallEnv where
  load_ok : Bool
  infer : Option (String × ℚ)

/-- The process state visible to `analyze_text`: the detector's
`_model_loaded` flag and the Redis connection with its stored
predictions (keyed by sanitized text; the MD5 key derivation is
injective on the trusted store). -/
structure DState where
  model_loaded : Bool
  connected : Bool
  store : List (List Char × ScoreResult)
deriving DecidableEq

/-- Observable effects of one `analyze_text` call. -/
structure CallLog where
  cache_checked : Bool
  cache_hit : Bool
  load_attempted : Bool
  computed : Bool
  model_invoked : Bool
  cache_stored : Bool
deriving DecidableEq, Repr

/-- Result, post-state and effect log of one `analyze_text` call. -/
structure CallOut where
  result : ScoreResult
  state : DState
  log : CallLog
deriving DecidableEq

/-- Association-list lookup modelling a Redis `GET`. -/
def lookupStore : List (List Char × ScoreResult) → List Char → Option ScoreResult
  | [], _ => none
  | (k, v) :: rest, t => if k = t then some v else lookupStore rest t

/-- `RedisCache.get_model_prediction`: `None` when disconnected. -/
def cache_get (st : DState) (text : List Char) : Option ScoreResult :=
  if st.connected then lookupStore st.store text else none

/-- `RedisCache.set_model_prediction`: a no-op when disconnected. -/
def cache_set (st : DState) (text : List Char) (r : ScoreResult) : DState :=
  if st.connected then { st with store := (text, r) :: st.store } else st

/-! ## `FakeNewsDetector.analyze_text` -/

/-- The dict returned for null, non-text or fully-sanitized-away input. -/
def invalid_result : ScoreResult :=
  { error := some "Invalid or empty text input"
    score := 0
    label := "unknown"
    reason := "invalid_input" }

/-- The model-backed result dict built inside `analyze_text` (lines
152-184 of `model.py`): label-polarity normalization, pattern detection,
fusion, reason selection. Note the built dict has no `fallback_mode`
key. -/
def model_result (rules : List (String × (List Char → Bool)))
    (sanitized_text : List Char) (lab : String) (conf : ℚ) : ScoreResult :=
  let model_score := if lab = "LABEL_0" then 1 - conf else conf
  let d := detect_suspicious_patterns rules sanitized_text
  let cs := calculate_credibility_score model_score d.1 d.2.length
  let reason :=
    if d.2 ≠ [] then
      "pattern_detection:" ++ String.intercalate "," (d.2.take 3)
    else if model_score > 8/10 then "high_model_confidence"
    else if model_score > 6/10 then "moderate_model_confidence"
    else "low_risk_patterns"
  { score := cs.1, label := cs.2, reason := reason
    model_confidence := some (some (round3 model_score))
    patterns_detected := some d.2.length
    text_length := some sanitized_text.length }

/-- `FakeNewsDetector.analyze_text`: sanitize, reject empty, consult the
cache, lazily (re)load the model, then either the model-backed scoring
path (cached on success) or `_fallback_analysis` (never cached). -/
def analyze_text (rules : List (String × (List Char → Bool))) (env : CallEnv)
    (st : DState) (input : Option (List Char)) : CallOut :=
  let sanitized_text := sanitize_input input
  if sanitized_text = [] then
    { result := invalid_result, state := st
      log := ⟨false, false, false, false, false, false⟩ }
  else
    match cache_get st sanitized_text with
    | some cached =>
      { result := cached, state := st
        log := ⟨true, true, false, false, false, false⟩ }
    | none =>
      let load_attempted := !st.model_loaded
      let model_loaded := st.model_loaded || env.load_ok
      let st1 : DState := { st with model_loaded := model_loaded }
      if model_loaded = false then
        { result := fallback_analysis rules sanitized_text, state := st1
          log := ⟨true, false, load_attempted, true, false, false⟩ }
      else
        match env.infer with
        | none =>
          { result := fallback_analysis rules sanitized_text, state := st1
            log := ⟨true, false, load_attempted, true, true, false⟩ }
        | some (lab, conf) =>
          let result := model_result rules sanitized_text lab conf
          { result := result, state := cache_set st1 sanitized_text result
            log := ⟨true, false, load_attempted, true, true, st1.connected⟩ }

/-- Well-formedness of a dict produced by a successful (non-error)
analysis: all documented fields present and in range, with the
`fallback_mode` key present (and true) exactly on the fallback path. -/
def GoodResult (r : ScoreResult) : Prop :=
  r.error = none ∧ 0 ≤ r.score ∧ r.score ≤ 100 ∧
  r.label ∈ (["reliable", "suspicious", "fake"] : List String) ∧
  r.patterns_detected.isSome = true ∧ r.text_length.isSome = true ∧
  ((r.fallback_mode = some true ∧ r.model_confidence = some none) ∨
   (r.fallback_mode = none ∧
     ∃ q, r.model_confidence = some (some q) ∧ 0 ≤ q ∧ q ≤ 1))

/-- Whitespace normal form: every whitespace character is a plain space
and no two adjacent characters are both whitespace. The output of
`collapseWS` satisfies it. -/
def WSOk (l : List Char) : Prop :=
  (∀ c ∈ l, isPyWS c = true → c = ' ') ∧
  l.Chain' (fun a b => ¬(isPyWS a = true ∧ isPyWS b = true))

/-! ## Spec-side definitions (from the specification's words, for
refinement comparison) -/

/-- Clamp an integer into `[lo, hi]`. -/
def clamp (lo hi x : ℤ) : ℤ := max lo (min hi x)

/-- Modelled from the spec words for the model-backed fused score:
`clamp(round(p * 100) + (signals non-empty ? min(len * 10, 30) : 0), 0, 100)`. -/
def spec_model_score (p : ℚ) (signals : List String) : ℤ :=
  clamp 0 100 (roundHalfEven (p * 100) +
    if signals ≠ [] then min ((signals.length : ℤ) * 10) 30 else 0)

/-! ## Helper lemmas -/

theorem detect_flag_eq (rules : List (String × (List Char → Bool)))
    (text : List Char) :
    (detect_suspicious_patterns rules text).1 =
      decide ((detect_suspicious_patterns rules text).2.length > 0) := rfl

theorem detect_flag_iff (rules : List (String × (List Char → Bool)))
    (text : List Char) :
    (detect_suspicious_patterns rules text).1 = true ↔
      (detect_suspicious_patterns rules text).2 ≠ [] := by
  rw [detect_flag_eq]
  simp [List.length_pos]

theorem calc_score_nonneg (p : ℚ) (susp : Bool) (n : ℕ) :
    0 ≤ (calculate_credibility_score p susp n).1 := by
  simp only [calculate_credibility_score]
  exact le_max_left 0 _

theorem calc_score_le (p : ℚ) (susp : Bool) (n : ℕ) :
    (calculate_credibility_score p susp n).1 ≤ 100 := by
  simp only [calculate_credibility_score]
  exact max_le (by norm_num) (min_le_left 100 _)

theorem calc_label_eq (p : ℚ) (susp : Bool) (n : ℕ) :
    (calculate_credibility_score p susp n).2 =
      (if (calculate_credibility_score p susp n).1 < 30 then "reliable"
       else if (calculate_credibility_score p susp n).1 < 70 then "suspicious"
       else "fake") := by
  simp only [calculate_credibility_score]

theorem fallback_score_eq_of_detected (rules : List (String × (List Char → Bool)))
    (text : List Char) (h : (detect_suspicious_patterns rules text).2 ≠ []) :
    (fallback_analysis rules text).score =
      min (60 + ((detect_suspicious_patterns rules text).2.length : ℤ) * 10) 90 := by
  have hflag : (detect_suspicious_patterns rules text).1 = true :=
    (detect_flag_iff rules text).2 h
  simp [fallback_analysis, hflag]

theorem fallback_of_empty (rules : List (String × (List Char → Bool)))
    (text : List Char) (h : (detect_suspicious_patterns rules text).2 = []) :
    (fallback_analysis rules text).score = 20 ∧
    (fallback_analysis rules text).label = "reliable" ∧
    (fallback_analysis rules text).reason = "fallback_low_risk" := by
  have hflag : (detect_suspicious_patterns rules text).1 = false := by
    have := detect_flag_iff rules text
    simp [h] at this
    exact this
  simp [fallback_analysis, hflag]

theorem fallback_score_cases (rules : List (String × (List Char → Bool)))
    (text : List Char) :
    (fallback_analysis rules text).score = 20 ∨
      (fallback_analysis rules text).score = 70 ∨
      (fallback_analysis rules text).score = 80 ∨
      (fallback_analysis rules text).score = 90 := by
  by_cases hflag : (detect_suspicious_patterns rules text).1 = true
  · have hne : (detect_suspicious_patterns rules text).2 ≠ [] :=
      (detect_flag_iff rules text).1 hflag
    have hlen : 1 ≤ (detect_suspicious_patterns rules text).2.length :=
      List.length_pos.2 hne
    have hs := fallback_score_eq_of_detected rules text hne
    rw [hs]
    omega
  · have hflag' : (detect_suspicious_patterns rules text).1 = false := by
      simpa using hflag
    simp [fallback_analysis, hflag']

theorem fallback_score_bounds (rules : List (String × (List Char → Bool)))
    (text : List Char) :
    0 ≤ (fallback_analysis rules text).score ∧
      (fallback_analysis rules text).score ≤ 100 := by
  rcases fallback_score_cases rules text with h | h | h | h <;> rw [h] <;> omega

theorem fallback_label_detected (rules : List (String × (List Char → Bool)))
    (text : List Char) (h : (detect_suspicious_patterns rules text).2 ≠ []) :
    (fallback_analysis rules text).label =
      (if (fallback_analysis rules text).score ≥ 80 then "fake"
       else "suspicious") ∧
    (fallback_analysis rules text).reason =
      "fallback_pattern_detection:" ++
        String.intercalate "," ((detect_suspicious_patterns rules text).2.take 3) := by
  have hflag : (detect_suspicious_patterns rules text).1 = true :=
    (detect_flag_iff rules text).2 h
  constructor
  · have hs := fallback_score_eq_of_detected rules text h
    rw [hs]
    simp only [fallback_analysis, hflag, if_true]
    by_cases hlt :
        min (60 + ((detect_suspicious_patterns rules text).2.length : ℤ) * 10) 90 < 80
    · have hge :
          ¬ (min (60 + ((detect_suspicious_patterns rules text).2.length : ℤ) * 10) 90 ≥ 80) := by
        omega
      rw [if_pos hlt, if_neg hge]
    · have hge :
          min (60 + ((detect_suspicious_patterns rules text).2.length : ℤ) * 10) 90 ≥ 80 := by
        omega
      rw [if_neg hlt, if_pos hge]
  · simp [fallback_analysis, hflag]

theorem lookupStore_mem (store : List (List Char × ScoreResult)) (t : List Char)
    (r : ScoreResult) (h : lookupStore store t = some r) : (t, r) ∈ store := by
  induction store with
  | nil => simp [lookupStore] at h
  | cons kv rest ih =>
    obtain ⟨k, v⟩ := kv
    by_cases hk : k = t
    · subst hk
      simp [lookupStore] at h
      subst h
      exact List.mem_cons_self _ _
    · rw [lookupStore, if_neg hk] at h
      exact List.mem_cons_of_mem _ (ih h)

theorem cache_get_some_mem (st : DState) (t : List Char) (r : ScoreResult)
    (h : cache_get st t = some r) : (t, r) ∈ st.store := by
  by_cases hcon : st.connected = true
  · rw [cache_get, if_pos hcon] at h
    exact lookupStore_mem _ _ _ h
  · rw [cache_get, if_neg hcon] at h
    exact absurd h (by simp)

theorem cache_get_set_same (st : DState) (t : List Char) (r : ScoreResult)
    (hcon : st.connected = true) : cache_get (cache_set st t r) t = some r := by
  simp [cache_get, cache_set, hcon, lookupStore]

theorem cache_set_of_disconnected (st : DState) (t : List Char) (r : ScoreResult)
    (hcon : st.connected = false) : cache_set st t r = st := by
  simp [cache_set, hcon]

theorem cache_get_model_loaded (st : DState) (b : Bool) (t : List Char) :
    cache_get { st with model_loaded := b } t = cache_get st t := rfl

theorem analyze_invalid (rules : List (String × (List Char → Bool)))
    (env : CallEnv) (st : DState) (input : Option (List Char))
    (h : sanitize_input input = []) :
    analyze_text rules env st input =
      ⟨invalid_result, st, ⟨false, false, false, false, false, false⟩⟩ := by
  simp [analyze_text, h]

theorem analyze_hit (rules : List (String × (List Char → Bool)))
    (env : CallEnv) (st : DState) (input : Option (List Char)) (r : ScoreResult)
    (h : sanitize_input input ≠ [])
    (hc : cache_get st (sanitize_input input) = some r) :
    analyze_text rules env st input =
      ⟨r, st, ⟨true, true, false, false, false, false⟩⟩ := by
  simp [analyze_text, h, hc]

theorem analyze_fallback_unloaded (rules : List (String × (List Char → Bool)))
    (env : CallEnv) (st : DState) (input : Option (List Char))
    (h : sanitize_input input ≠ [])
    (hc : cache_get st (sanitize_input input) = none)
    (hload : (st.model_loaded || env.load_ok) = false) :
    analyze_text rules env st input =
      ⟨fallback_analysis rules (sanitize_input input),
       { st with model_loaded := false },
       ⟨true, false, !st.model_loaded, true, false, false⟩⟩ := by
  simp [analyze_text, h, hc, hload]

theorem analyze_fallback_raise (rules : List (String × (List Char → Bool)))
    (env : CallEnv) (st : DState) (input : Option (List Char))
    (h : sanitize_input input ≠ [])
    (hc : cache_get st (sanitize_input input) = none)
    (hload : (st.model_loaded || env.load_ok) = true) (hi : env.infer = none) :
    analyze_text rules env st input =
      ⟨fallback_analysis rules (sanitize_input input),
       { st with model_loaded := true },
       ⟨true, false, !st.model_loaded, true, true, false⟩⟩ := by
  simp [analyze_text, h, hc, hload, hi]

theorem analyze_model (rules : List (String × (List Char → Bool)))
    (env : CallEnv) (st : DState) (input : Option (List Char))
    (lab : String) (conf : ℚ)
    (h : sanitize_input input ≠ [])
    (hc : cache_get st (sanitize_input input) = none)
    (hload : (st.model_loaded || env.load_ok) = true)
    (hi : env.infer = some (lab, conf)) :
    analyze_text rules env st input =
      ⟨model_result rules (sanitize_input input) lab conf,
       cache_set { st with model_loaded := true } (sanitize_input input)
         (model_result rules (sanitize_input input) lab conf),
       ⟨true, false, !st.model_loaded, true, true, st.connected⟩⟩ := by
  simp [analyze_text, h, hc, hload, hi]

theorem fallback_error_none (rules : List (String × (List Char → Bool)))
    (text : List Char) : (fallback_analysis rules text).error = none := by
  by_cases hflag : (detect_suspicious_patterns rules text).1 = true <;>
    simp [fallback_analysis, hflag]

theorem model_result_error_none (rules : List (String × (List Char → Bool)))
    (text : List Char) (lab : String) (conf : ℚ) :
    (model_result rules text lab conf).error = none := rfl

theorem analyze_error_none (rules : List (String × (List Char → Bool)))
    (env : CallEnv) (st : DState) (input : Option (List Char))
    (hstore : ∀ k r, (k, r) ∈ st.store → r.error = none)
    (h : sanitize_input input ≠ []) :
    (analyze_text rules env st input).result.error = none := by
  rcases hcg : cache_get st (sanitize_input input) with _ | r
  · rcases hload : (st.model_loaded || env.load_ok) with _ | _
    · rw [analyze_fallback_unloaded rules env st input h hcg hload]
      exact fallback_error_none rules _
    · rcases hi : env.infer with _ | ⟨lab, conf⟩
      · rw [analyze_fallback_raise rules env st input h hcg hload hi]
        exact fallback_error_none rules _
      · rw [analyze_model rules env st input lab conf h hcg hload hi]
        exact model_result_error_none rules _ lab conf
  · rw [analyze_hit rules env st input r h hcg]
    exact hstore _ r (cache_get_some_mem st _ r hcg)

/-! ## Sanitizer lemmas (toward claim C6) -/

theorem removeTagsGo_id (s : List Char) (h : '<' ∉ s) :
    ∀ n, removeTagsGo n s = s := by
  induction s with
  | nil => intro n; cases n <;> rfl
  | cons c rest ih =>
    intro n
    have hc : ¬(c = '<') := fun hc => h (hc ▸ List.mem_cons_self _ _)
    have hrest : '<' ∉ rest := fun hm => h (List.mem_cons_of_mem _ hm)
    cases n with
    | zero => rfl
    | succ m =>
      simp only [removeTagsGo, if_neg hc]
      rw [ih hrest m]

theorem removeTags_id (s : List Char) (h : '<' ∉ s) : removeTags s = s :=
  removeTagsGo_id s h s.length

theorem removeAllCIGo_id (pat s : List Char) (h : hasOccCI pat s = false) :
    ∀ n, removeAllCIGo pat n s = s := by
  induction s with
  | nil => intro n; cases n <;> rfl
  | cons c rest ih =>
    intro n
    have h2 : (stripPrefixCI pat (c :: rest)).isSome = false ∧
        hasOccCI pat rest = false := by
      rw [hasOccCI] at h
      exact Bool.or_eq_false_iff.1 h
    have hnone : stripPrefixCI pat (c :: rest) = none := by
      rcases hopt : stripPrefixCI pat (c :: rest) with _ | v
      · rfl
      · rw [hopt] at h2
        exact absurd h2.1 (by simp)
    cases n with
    | zero => rfl
    | succ m =>
      simp only [removeAllCIGo, hnone]
      rw [ih h2.2 m]

theorem removeAllCI_id (pat s : List Char) (h : hasOccCI pat s = false) :
    removeAllCI pat s = s :=
  removeAllCIGo_id pat s h s.length

theorem collapseWSAux_length (s : List Char) :
    ∀ b, (collapseWSAux b s).length ≤ s.length := by
  induction s with
  | nil => intro b; simp [collapseWSAux]
  | cons c rest ih =>
    intro b
    by_cases hws : isPyWS c = true
    · cases b with
      | false =>
        have e : collapseWSAux false (c :: rest) = ' ' :: collapseWSAux true rest := by
          simp [collapseWSAux, hws]
        rw [e]
        simpa using ih true
      | true =>
        have e : collapseWSAux true (c :: rest) = collapseWSAux true rest := by
          simp [collapseWSAux, hws]
        rw [e]
        exact le_trans (ih true) (Nat.le_succ _)
    · have e : collapseWSAux b (c :: rest) = c :: collapseWSAux false rest := by
        simp [collapseWSAux, hws]
      rw [e]
      simpa using ih false

theorem pyStrip_length (s : List Char) : (pyStrip s).length ≤ s.length := by
  rw [pyStrip]
  have h1 : (s.dropWhile isPyWS).length ≤ s.length :=
    (List.dropWhile_suffix _).sublist.length_le
  have h2 : ((s.dropWhile isPyWS).reverse.dropWhile isPyWS).length ≤
      (s.dropWhile isPyWS).reverse.length :=
    (List.dropWhile_suffix _).sublist.length_le
  simp only [List.length_reverse] at h2 ⊢
  exact le_trans h2 h1

theorem sanitize_text_length (x : List Char) : (sanitize_text x).length ≤ 10000 := by
  rw [sanitize_text]
  by_cases hx : x = []
  · simp [hx]
  · rw [if_neg hx]
    refine le_trans (pyStrip_length _) (le_trans (collapseWSAux_length _ false) ?_)
    rw [List.length_take]
    exact min_le_left _ _

theorem wsok_tail {c : Char} {l : List Char} (h : WSOk (c :: l)) : WSOk l :=
  ⟨fun d hd hw => h.1 d (List.mem_cons_of_mem _ hd) hw, (List.chain'_cons'.1 h.2).2⟩

theorem wsok_suffix {l₁ l₂ : List Char} (h : WSOk l₂) (hs : l₁ <:+ l₂) : WSOk l₁ :=
  ⟨fun c hc hw => h.1 c (hs.sublist.subset hc) hw, h.2.suffix hs⟩

theorem wsok_reverse {l : List Char} (h : WSOk l) : WSOk l.reverse := by
  refine ⟨fun c hc hw => h.1 c (List.mem_reverse.1 hc) hw, ?_⟩
  rw [List.chain'_reverse]
  exact h.2.imp fun a b hab => fun hand => hab ⟨hand.2, hand.1⟩

theorem collapseWSAux_true_head (s : List Char) :
    ∀ c, (collapseWSAux true s).head? = some c → isPyWS c = false := by
  induction s with
  | nil => intro c hc; simp [collapseWSAux] at hc
  | cons d rest ih =>
    intro c hc
    by_cases hws : isPyWS d = true
    · have e : collapseWSAux true (d :: rest) = collapseWSAux true rest := by
        simp [collapseWSAux, hws]
      rw [e] at hc
      exact ih c hc
    · have e : collapseWSAux true (d :: rest) = d :: collapseWSAux false rest := by
        simp [collapseWSAux, hws]
      rw [e] at hc
      simp only [List.head?_cons, Option.some.injEq] at hc
      rw [← hc]
      simpa using hws

theorem collapseWSAux_wsok (s : List Char) : ∀ b, WSOk (collapseWSAux b s) := by
  induction s with
  | nil =>
    intro b
    exact ⟨by simp [collapseWSAux], by simp [collapseWSAux]⟩
  | cons c rest ih =>
    intro b
    by_cases hws : isPyWS c = true
    · cases b with
      | true =>
        have e : collapseWSAux true (c :: rest) = collapseWSAux true rest := by
          simp [collapseWSAux, hws]
        rw [e]
        exact ih true
      | false =>
        have e : collapseWSAux false (c :: rest) = ' ' :: collapseWSAux true rest := by
          simp [collapseWSAux, hws]
        rw [e]
        constructor
        · intro d hd _
          rcases List.mem_cons.1 hd with h1 | h2
          · exact h1
          · exact (ih true).1 d h2 (by assumption)
        · refine List.chain'_cons'.2 ⟨?_, (ih true).2⟩
          intro y hy
          have hyf := collapseWSAux_true_head rest y hy
          exact fun hand => absurd hand.2 (by simp [hyf])
    · have e : collapseWSAux b (c :: rest) = c :: collapseWSAux false rest := by
        simp [collapseWSAux, hws]
      rw [e]
      constructor
      · intro d hd hwd
        rcases List.mem_cons.1 hd with h1 | h2
        · exact absurd (h1 ▸ hwd) (by simpa using hws)
        · exact (ih false).1 d h2 hwd
      · refine List.chain'_cons'.2 ⟨?_, (ih false).2⟩
        intro y _
        exact fun hand => absurd hand.1 (by simpa using hws)

theorem collapseWSAux_fix (l : List Char) (h : WSOk l) :
    collapseWSAux false l = l ∧
    ((∀ c, l.head? = some c → isPyWS c = false) → collapseWSAux true l = l) := by
  induction l with
  | nil => exact ⟨rfl, fun _ => rfl⟩
  | cons c rest ih =>
    have hrest : WSOk rest := wsok_tail h
    obtain ⟨ihf, iht⟩ := ih hrest
    by_cases hws : isPyWS c = true
    · have hc : c = ' ' := h.1 c (List.mem_cons_self _ _) hws
      have hhead : ∀ d, rest.head? = some d → isPyWS d = false := by
        intro d hd
        have hr := (List.chain'_cons'.1 h.2).1 d hd
        by_contra hcon
        exact hr ⟨hws, by simpa using hcon⟩
      constructor
      · have e : collapseWSAux false (c :: rest) = ' ' :: collapseWSAux true rest := by
          simp [collapseWSAux, hws]
        rw [e, iht hhead, hc]
      · intro hh
        exact absurd (hh c rfl) (by simp [hws])
    · have e : ∀ b, collapseWSAux b (c :: rest) = c :: collapseWSAux false rest := by
        intro b
        simp [collapseWSAux, hws]
      exact ⟨by rw [e false, ihf], fun _ => by rw [e true, ihf]⟩

theorem head?_dropWhile_false (p : Char → Bool) (l : List Char) (c : Char)
    (h : (l.dropWhile p).head? = some c) : p c = false := by
  have hm := List.head?_dropWhile_not p l
  rw [h] at hm
  exact hm

theorem dropWhile_id_of_head (p : Char → Bool) (l : List Char)
    (h : ∀ c, l.head? = some c → p c = false) : l.dropWhile p = l := by
  cases l with
  | nil => rfl
  | cons c rest => simp [List.dropWhile_cons, h c rfl]

theorem getLast?_of_suffix {l₁ l₂ : List Char} (hs : l₁ <:+ l₂) (hne : l₁ ≠ []) :
    l₁.getLast? = l₂.getLast? := by
  obtain ⟨t, rfl⟩ := hs
  rw [List.getLast?_append_of_ne_nil t hne]

theorem pyStrip_head (l : List Char) (c : Char)
    (h : (pyStrip l).head? = some c) : isPyWS c = false := by
  rw [pyStrip, List.head?_reverse] at h
  have hne : (l.dropWhile isPyWS).reverse.dropWhile isPyWS ≠ [] := by
    intro h0
    rw [h0] at h
    simp at h
  rw [getLast?_of_suffix (List.dropWhile_suffix _) hne, List.getLast?_reverse] at h
  exact head?_dropWhile_false _ _ _ h

theorem pyStrip_reverse_head (l : List Char) (c : Char)
    (h : (pyStrip l).reverse.head? = some c) : isPyWS c = false := by
  rw [pyStrip, List.reverse_reverse] at h
  exact head?_dropWhile_false _ _ _ h

theorem pyStrip_fix (l : List Char)
    (h1 : ∀ c, l.head? = some c → isPyWS c = false)
    (h2 : ∀ c, l.reverse.head? = some c → isPyWS c = false) :
    pyStrip l = l := by
  rw [pyStrip, dropWhile_id_of_head _ _ h1, dropWhile_id_of_head _ _ h2,
    List.reverse_reverse]

theorem norm_wsok (w : List Char) : WSOk (pyStrip (collapseWS w)) := by
  have h0 : WSOk (collapseWSAux false w) := collapseWSAux_wsok w false
  have h1 : WSOk ((collapseWSAux false w).dropWhile isPyWS) :=
    wsok_suffix h0 (List.dropWhile_suffix _)
  have h2 := wsok_reverse h1
  have h3 : WSOk (((collapseWSAux false w).dropWhile isPyWS).reverse.dropWhile isPyWS) :=
    wsok_suffix h2 (List.dropWhile_suffix _)
  exact wsok_reverse h3

theorem collapseWS_strip_fix (w : List Char) :
    collapseWS (pyStrip (collapseWS w)) = pyStrip (collapseWS w) :=
  (collapseWSAux_fix _ (norm_wsok w)).1

theorem pyStrip_strip_fix (w : List Char) :
    pyStrip (pyStrip (collapseWS w)) = pyStrip (collapseWS w) :=
  pyStrip_fix _ (fun c hc => pyStrip_head _ c hc)
    (fun c hc => pyStrip_reverse_head _ c hc)

/-! ## Claim C1 -/

/-- C1 counterexample: at model probability `p = 0.999` with no signals the
code computes `int(p * 100) = 99` (truncation) while the claimed formula
`clamp(round(p * 100) + 0, 0, 100)` yields `100`, so the claimed equality
fails. -/
theorem c1_truncation_counterexample :
    (calculate_credibility_score (999/1000) (([] : List String).length > 0)
        ([] : List String).length).1 = 99 ∧
    spec_model_score (999/1000) [] = 100 ∧
    (calculate_credibility_score (999/1000) (([] : List String).length > 0)
        ([] : List String).length).1 ≠ spec_model_score (999/1000) [] := by
  with_unfolding_all decide

/-- C1 (amended): on the model-backed path, for `p ∈ [0, 1]` the fused
score equals `clamp(trunc(p * 100) + (signals non-empty ?
min(len * 10, 30) : 0), 0, 100)`: the base is the TRUNCATED probability
times 100 (Python `int`), not the rounded one; bonus cap and clamp are as
claimed. -/
theorem c1_model_backed_fusion (p : ℚ) (signals : List String)
    (h0 : 0 ≤ p) (h1 : p ≤ 1) :
    (calculate_credibility_score p (signals.length > 0) signals.length).1 =
      clamp 0 100 (⌊p * 100⌋ +
        if signals ≠ [] then min ((signals.length : ℤ) * 10) 30 else 0) := by
  have hp : (0:ℚ) ≤ p * 100 := by positivity
  rcases signals with _ | ⟨a, rest⟩
  · simp [calculate_credibility_score, pyTrunc, clamp, hp]
  · simp [calculate_credibility_score, pyTrunc, clamp, hp]

/-- C1 witness: the amended formula at `p = 1/2` with one signal. -/
theorem c1_model_backed_fusion_witness :
    (calculate_credibility_score (1/2) ((["a"] : List String).length > 0)
        (["a"] : List String).length).1 =
      clamp 0 100 (⌊(1/2 : ℚ) * 100⌋ +
        if (["a"] : List String) ≠ [] then
          min (((["a"] : List String).length : ℤ) * 10) 30
        else 0) :=
  c1_model_backed_fusion (1/2) ["a"] (by norm_num) (by norm_num)

/-! ## Claim C4 -/

/-- C4: on the fallback path, a non-empty signal set yields
`score = min(60 + len * 10, 90)` with label `fake` iff `score ≥ 80`
(else `suspicious`) and reason `fallback_pattern_detection` carrying up to
3 signal identifiers; an empty signal set yields `20 / reliable /
fallback_low_risk`; every fallback score lies in `{20} ∪ [60, 90]`. -/
theorem c4_fallback_path (rules : List (String × (List Char → Bool)))
    (text : List Char) :
    ((detect_suspicious_patterns rules text).2 ≠ [] →
      (fallback_analysis rules text).score =
        min (60 + ((detect_suspicious_patterns rules text).2.length : ℤ) * 10) 90 ∧
      (fallback_analysis rules text).label =
        (if (fallback_analysis rules text).score ≥ 80 then "fake"
         else "suspicious") ∧
      (fallback_analysis rules text).reason =
        "fallback_pattern_detection:" ++
          String.intercalate "," ((detect_suspicious_patterns rules text).2.take 3)) ∧
    ((detect_suspicious_patterns rules text).2 = [] →
      (fallback_analysis rules text).score = 20 ∧
      (fallback_analysis rules text).label = "reliable" ∧
      (fallback_analysis rules text).reason = "fallback_low_risk") ∧
    ((fallback_analysis rules text).score = 20 ∨
      (60 ≤ (fallback_analysis rules text).score ∧
        (fallback_analysis rules text).score ≤ 90)) := by
  refine ⟨fun h => ⟨fallback_score_eq_of_detected rules text h,
      (fallback_label_detected rules text h).1,
      (fallback_label_detected rules text h).2⟩,
    fun h => fallback_of_empty rules text h, ?_⟩
  rcases fallback_score_cases rules text with h | h | h | h <;> rw [h] <;> omega

/-- C4 witness: one abstract pattern rule that always matches produces the
detected branch on empty text. -/
theorem c4_fallback_path_witness :
    (fallback_analysis [("r1", fun _ => true)] []).score =
      min (60 +
        ((detect_suspicious_patterns [("r1", fun _ => true)] []).2.length : ℤ) * 10) 90 :=
  ((c4_fallback_path [("r1", fun _ => true)] []).1 (by decide)).1

/-! ## Claim C5 -/

/-- C5: every produced score is an integer in `[0, 100]` (both the
model-backed fusion and the fallback path), and on the model-backed path
the label is the pure threshold function of the score
(`< 30` reliable, `< 70` suspicious, else fake). -/
theorem c5_score_range_and_label (p : ℚ) (susp : Bool) (n : ℕ)
    (rules : List (String × (List Char → Bool))) (text : List Char) :
    (0 ≤ (calculate_credibility_score p susp n).1 ∧
      (calculate_credibility_score p susp n).1 ≤ 100) ∧
    (calculate_credibility_score p susp n).2 =
      (if (calculate_credibility_score p susp n).1 < 30 then "reliable"
       else if (calculate_credibility_score p susp n).1 < 70 then "suspicious"
       else "fake") ∧
    (0 ≤ (fallback_analysis rules text).score ∧
      (fallback_analysis rules text).score ≤ 100) :=
  ⟨⟨calc_score_nonneg p susp n, calc_score_le p susp n⟩,
   calc_label_eq p susp n, fallback_score_bounds rules text⟩

/-! ## Claim C2 -/

/-- C2 counterexample: with an empty store, a first call whose load fails
falls back and leaves the loaded flag down, and the very next call with
the same input attempts the load again (`load_attempted = true`) and, the
environment now allowing, takes the model-backed path (no `fallback_mode`
key) — the Failed state is neither sticky nor short-circuiting. -/
theorem c2_retry_counterexample :
    (analyze_text [] ⟨false, none⟩ ⟨false, true, []⟩
        (some "hello".toList)).state.model_loaded = false ∧
    (analyze_text [] ⟨true, some ("LABEL_1", 1/2)⟩
        (analyze_text [] ⟨false, none⟩ ⟨false, true, []⟩ (some "hello".toList)).state
        (some "hello".toList)).log.load_attempted = true ∧
    (analyze_text [] ⟨true, some ("LABEL_1", 1/2)⟩
        (analyze_text [] ⟨false, none⟩ ⟨false, true, []⟩ (some "hello".toList)).state
        (some "hello".toList)).result.fallback_mode = none := by
  with_unfolding_all decide

/-- C2 (amended): a failed load attempt only leaves `model_loaded = false`
and is NOT sticky: every later call that reaches the load step (cache
miss, flag down) attempts the load again; if that attempt fails, that call
falls back and the flag stays down, while a successful attempt flips the
flag and enables the model path. -/
theorem c2_failed_load_not_sticky (rules : List (String × (List Char → Bool)))
    (env : CallEnv) (st : DState) (input : Option (List Char))
    (h : sanitize_input input ≠ [])
    (hc : cache_get st (sanitize_input input) = none)
    (hm : st.model_loaded = false) :
    (analyze_text rules env st input).log.load_attempted = true ∧
    (env.load_ok = false →
      (analyze_text rules env st input).state.model_loaded = false ∧
      (analyze_text rules env st input).result =
        fallback_analysis rules (sanitize_input input)) ∧
    (env.load_ok = true →
      (analyze_text rules env st input).state.model_loaded = true) := by
  rcases hl : env.load_ok with _ | _
  · have hload : (st.model_loaded || env.load_ok) = false := by simp [hm, hl]
    rw [analyze_fallback_unloaded rules env st input h hc hload]
    exact ⟨by simp [hm], fun _ => ⟨rfl, rfl⟩, fun hcontra => absurd hcontra (by simp)⟩
  · have hload : (st.model_loaded || env.load_ok) = true := by simp [hl]
    rcases hi : env.infer with _ | ⟨lab, conf⟩
    · rw [analyze_fallback_raise rules env st input h hc hload hi]
      exact ⟨by simp [hm], fun hcontra => absurd hcontra (by simp), fun _ => rfl⟩
    · rw [analyze_model rules env st input lab conf h hc hload hi]
      refine ⟨by simp [hm], fun hcontra => absurd hcontra (by simp), fun _ => ?_⟩
      by_cases hcon : st.connected = true <;> simp [cache_set, hcon]

/-- C2 witness: the amended statement at a concrete failed-load call. -/
theorem c2_failed_load_not_sticky_witness :
    (analyze_text [] ⟨false, none⟩ ⟨false, true, []⟩
      (some "hello".toList)).log.load_attempted = true :=
  (c2_failed_load_not_sticky [] ⟨false, none⟩ ⟨false, true, []⟩
    (some "hello".toList) (by decide) (by decide) rfl).1

/-! ## Claim C3 -/

/-- C3 counterexample: a fallback-path result is not cached — the first
call returns a fallback result yet stores nothing, and the repeat call
with the same key invokes the compute step again. -/
theorem c3_fallback_not_cached_counterexample :
    (analyze_text [] ⟨false, none⟩ ⟨false, true, []⟩
        (some "hello".toList)).result.fallback_mode = some true ∧
    (analyze_text [] ⟨false, none⟩ ⟨false, true, []⟩
        (some "hello".toList)).state.store = [] ∧
    (analyze_text [] ⟨false, none⟩
        (analyze_text [] ⟨false, none⟩ ⟨false, true, []⟩ (some "hello".toList)).state
        (some "hello".toList)).log.computed = true := by
  decide

/-- C3 (amended): if a call stored its (necessarily model-backed) result,
any immediately following call with the same key returns exactly the
stored result from the cache without recomputing, whatever the
environment; if a call did not store (in particular on every fallback
path), the store is unchanged and an identical repeat call recomputes,
deterministically reproducing the same result. -/
theorem c3_cache_idempotence (rules : List (String × (List Char → Bool)))
    (env env' : CallEnv) (st : DState) (input : Option (List Char))
    (h : sanitize_input input ≠ [])
    (hc : cache_get st (sanitize_input input) = none) :
    ((analyze_text rules env st input).log.cache_stored = true →
      analyze_text rules env' (analyze_text rules env st input).state input =
        ⟨(analyze_text rules env st input).result,
         (analyze_text rules env st input).state,
         ⟨true, true, false, false, false, false⟩⟩) ∧
    ((analyze_text rules env st input).log.cache_stored = false →
      (analyze_text rules env st input).state.store = st.store ∧
      (analyze_text rules env (analyze_text rules env st input).state input).result =
        (analyze_text rules env st input).result ∧
      (analyze_text rules env (analyze_text rules env st input).state input).log.computed =
        true) := by
  rcases hload : (st.model_loaded || env.load_ok) with _ | _
  · rw [analyze_fallback_unloaded rules env st input h hc hload]
    refine ⟨fun hcontra => absurd hcontra (by simp), fun _ => ⟨rfl, ?_, ?_⟩⟩
    · have hload2 :
          (({ st with model_loaded := false } : DState).model_loaded || env.load_ok) =
            false := by
        have := Bool.or_eq_false_iff.1 hload
        simp [this.2]
      rw [analyze_fallback_unloaded rules env { st with model_loaded := false } input h
        (by rw [cache_get_model_loaded]; exact hc) hload2]
    · have hload2 :
          (({ st with model_loaded := false } : DState).model_loaded || env.load_ok) =
            false := by
        have := Bool.or_eq_false_iff.1 hload
        simp [this.2]
      rw [analyze_fallback_unloaded rules env { st with model_loaded := false } input h
        (by rw [cache_get_model_loaded]; exact hc) hload2]
  · rcases hi : env.infer with _ | ⟨lab, conf⟩
    · rw [analyze_fallback_raise rules env st input h hc hload hi]
      refine ⟨fun hcontra => absurd hcontra (by simp), fun _ => ⟨rfl, ?_, ?_⟩⟩
      · rw [analyze_fallback_raise rules env { st with model_loaded := true } input h
          (by rw [cache_get_model_loaded]; exact hc) (by simp) hi]
      · rw [analyze_fallback_raise rules env { st with model_loaded := true } input h
          (by rw [cache_get_model_loaded]; exact hc) (by simp) hi]
    · rw [analyze_model rules env st input lab conf h hc hload hi]
      by_cases hcon : st.connected = true
      · refine ⟨fun _ => ?_, fun hcontra => ?_⟩
        · rw [analyze_hit rules env'
            (cache_set { st with model_loaded := true } (sanitize_input input)
              (model_result rules (sanitize_input input) lab conf))
            input (model_result rules (sanitize_input input) lab conf) h
            (cache_get_set_same _ _ _ hcon)]
        · have hfalse : st.connected = false := hcontra
          rw [hcon] at hfalse
          exact absurd hfalse (by simp)
      · have hcon' : st.connected = false := by simpa using hcon
        have hdis :
            cache_set { st with model_loaded := true } (sanitize_input input)
                (model_result rules (sanitize_input input) lab conf) =
              { st with model_loaded := true } :=
          cache_set_of_disconnected _ _ _ hcon'
        rw [hdis]
        refine ⟨fun hcontra => ?_, fun _ => ⟨rfl, ?_, ?_⟩⟩
        · have htrue : st.connected = true := hcontra
          rw [hcon'] at htrue
          exact absurd htrue (by simp)
        · rw [analyze_model rules env { st with model_loaded := true } input lab conf h
            (by rw [cache_get_model_loaded]; exact hc) (by simp) hi]
        · rw [analyze_model rules env { st with model_loaded := true } input lab conf h
            (by rw [cache_get_model_loaded]; exact hc) (by simp) hi]

/-- C3 witness: the stored-result half at a concrete model-backed call. -/
theorem c3_cache_idempotence_witness :
    analyze_text [] ⟨false, none⟩
        (analyze_text [] ⟨true, some ("LABEL_1", 1/2)⟩ ⟨false, true, []⟩
          (some "hello".toList)).state
        (some "hello".toList) =
      ⟨(analyze_text [] ⟨true, some ("LABEL_1", 1/2)⟩ ⟨false, true, []⟩
          (some "hello".toList)).result,
       (analyze_text [] ⟨true, some ("LABEL_1", 1/2)⟩ ⟨false, true, []⟩
          (some "hello".toList)).state,
       ⟨true, true, false, false, false, false⟩⟩ :=
  (c3_cache_idempotence [] ⟨true, some ("LABEL_1", 1/2)⟩ ⟨false, none⟩
    ⟨false, true, []⟩ (some "hello".toList) (by decide) (by decide)).1
    (by with_unfolding_all decide)

/-! ## Claim C7 -/

/-- C7: null/non-text input and input sanitizing to empty yield the
invalid-input error dict, returned with the state unchanged and without
touching the cache or the classifier; on every other input (over an
error-free store) the returned result carries no error — InvalidInput is
the only error ever surfaced — and the sanitizer signals null input only
by the empty string. -/
theorem c7_invalid_input_short_circuit (rules : List (String × (List Char → Bool)))
    (env : CallEnv) (st : DState) (input : Option (List Char)) :
    (sanitize_input input = [] →
      analyze_text rules env st input =
        ⟨invalid_result, st, ⟨false, false, false, false, false, false⟩⟩) ∧
    ((∀ k r, (k, r) ∈ st.store → r.error = none) →
      sanitize_input input ≠ [] →
      (analyze_text rules env st input).result.error = none) ∧
    sanitize_input none = [] :=
  ⟨fun h => analyze_invalid rules env st input h,
   fun hstore h => analyze_error_none rules env st input hstore h,
   rfl⟩

/-- C7 witness: all-whitespace input at a concrete call. -/
theorem c7_invalid_input_short_circuit_witness :
    analyze_text [] ⟨false, none⟩ ⟨false, true, []⟩ (some "   ".toList) =
      ⟨invalid_result, ⟨false, true, []⟩, ⟨false, false, false, false, false, false⟩⟩ :=
  (c7_invalid_input_short_circuit [] ⟨false, none⟩ ⟨false, true, []⟩
    (some "   ".toList)).1 (by decide)

/-! ## Claim C6 -/

/-- C6 counterexample: sanitizing `"javajavascript:script:"` removes the
inner `javascript:` and thereby re-forms a new `javascript:`, which only a
second pass removes — so `sanitize(sanitize(x)) ≠ sanitize(x)`. -/
theorem c6_not_idempotent_counterexample :
    sanitize_text "javajavascript:script:".toList = "javascript:".toList ∧
    sanitize_text (sanitize_text "javajavascript:script:".toList) = [] ∧
    sanitize_text (sanitize_text "javajavascript:script:".toList) ≠
      sanitize_text "javajavascript:script:".toList := by
  decide

/-- C6 (amended): the sanitizer is idempotent exactly on the inputs whose
sanitized form is free of removable material: for every `x` such that
`sanitize(x)` contains no `<` character and no case-insensitive
`javascript:` or `data:` substring, `sanitize(sanitize(x)) = sanitize(x)`.
In general idempotence fails, because removing one scheme substring can
re-form another (see the counterexample). -/
theorem c6_sanitize_conditional_idempotent (x : List Char)
    (htag : '<' ∉ sanitize_text x)
    (hjs : hasOccCI jsPat (sanitize_text x) = false)
    (hdata : hasOccCI dataPat (sanitize_text x) = false) :
    sanitize_text (sanitize_text x) = sanitize_text x := by
  by_cases hx : x = []
  · rw [hx]
    rfl
  · by_cases hy : sanitize_text x = []
    · rw [hy]
      rfl
    · conv_lhs => rw [sanitize_text]
      rw [if_neg hy]
      rw [removeTags_id _ htag, removeAllCI_id jsPat _ hjs,
        removeAllCI_id dataPat _ hdata,
        List.take_of_length_le (sanitize_text_length x)]
      have hform : sanitize_text x =
          pyStrip (collapseWS
            ((removeAllCI dataPat (removeAllCI jsPat (removeTags x))).take 10000)) := by
        rw [sanitize_text, if_neg hx]
      rw [hform, collapseWS_strip_fix, pyStrip_strip_fix]

/-- C6 witness: the amended statement on a benign input. -/
theorem c6_sanitize_conditional_idempotent_witness :
    sanitize_text (sanitize_text "hello world".toList) =
      sanitize_text "hello world".toList :=
  c6_sanitize_conditional_idempotent "hello world".toList
    (by decide) (by decide) (by decide)

/-! ## Claim C8 -/

theorem roundHalfEven_ge_floor (x : ℚ) : ⌊x⌋ ≤ roundHalfEven x := by
  simp only [roundHalfEven]
  split_ifs <;> omega

theorem roundHalfEven_le_ceil (x : ℚ) : roundHalfEven x ≤ ⌈x⌉ := by
  have hfc : ⌊x⌋ ≤ ⌈x⌉ := Int.floor_le_ceil x
  have key : ¬(x - (⌊x⌋ : ℚ) < 1/2) → ⌊x⌋ + 1 ≤ ⌈x⌉ := by
    intro hr
    have h1 : (⌊x⌋ : ℚ) < x := by
      have h2 : (1 : ℚ)/2 ≤ x - ⌊x⌋ := not_lt.1 hr
      linarith
    have h2 : (⌊x⌋ : ℚ) < (⌈x⌉ : ℚ) := lt_of_lt_of_le h1 (Int.le_ceil x)
    have h3 : ⌊x⌋ < ⌈x⌉ := by exact_mod_cast h2
    omega
  simp only [roundHalfEven]
  split_ifs with h1 h2 h3
  · exact hfc
  · exact key h1
  · exact hfc
  · exact key h1

theorem round3_mem_unit (p : ℚ) (h0 : 0 ≤ p) (h1 : p ≤ 1) :
    0 ≤ round3 p ∧ round3 p ≤ 1 := by
  have hge : (0 : ℤ) ≤ roundHalfEven (p * 1000) := by
    have hf : (0 : ℤ) ≤ ⌊p * 1000⌋ := Int.floor_nonneg.2 (by positivity)
    exact le_trans hf (roundHalfEven_ge_floor _)
  have hle : roundHalfEven (p * 1000) ≤ 1000 := by
    have hx : p * 1000 ≤ ((1000 : ℤ) : ℚ) := by
      push_cast
      nlinarith
    exact le_trans (roundHalfEven_le_ceil _) (Int.ceil_le.2 hx)
  constructor
  · exact div_nonneg (by exact_mod_cast hge) (by norm_num)
  · rw [round3, div_le_one (by norm_num)]
    exact_mod_cast hle

theorem calc_label_mem (p : ℚ) (susp : Bool) (n : ℕ) :
    (calculate_credibility_score p susp n).2 ∈
      (["reliable", "suspicious", "fake"] : List String) := by
  simp only [calculate_credibility_score]
  split_ifs <;> simp

theorem fallback_label_mem (rules : List (String × (List Char → Bool)))
    (text : List Char) :
    (fallback_analysis rules text).label ∈
      (["reliable", "suspicious", "fake"] : List String) := by
  by_cases hflag : (detect_suspicious_patterns rules text).1 = true
  · simp only [fallback_analysis, hflag, if_true]
    by_cases hlt :
        min (60 + ((detect_suspicious_patterns rules text).2.length : ℤ) * 10) 90 < 80 <;>
      simp [hlt]
  · simp [fallback_analysis, hflag]

theorem fallback_good (rules : List (String × (List Char → Bool)))
    (text : List Char) : GoodResult (fallback_analysis rules text) := by
  refine ⟨fallback_error_none rules text, (fallback_score_bounds rules text).1,
    (fallback_score_bounds rules text).2, fallback_label_mem rules text, ?_, ?_,
    Or.inl ⟨?_, ?_⟩⟩ <;>
    by_cases hflag : (detect_suspicious_patterns rules text).1 = true <;>
      simp [fallback_analysis, hflag]

theorem model_result_good (rules : List (String × (List Char → Bool)))
    (text : List Char) (lab : String) (conf : ℚ)
    (h0 : 0 ≤ conf) (h1 : conf ≤ 1) :
    GoodResult (model_result rules text lab conf) := by
  have hp0 : 0 ≤ (if lab = "LABEL_0" then 1 - conf else conf) := by
    split <;> linarith
  have hp1 : (if lab = "LABEL_0" then 1 - conf else conf) ≤ 1 := by
    split <;> linarith
  exact ⟨rfl, calc_score_nonneg _ _ _, calc_score_le _ _ _, calc_label_mem _ _ _,
    rfl, rfl,
    Or.inr ⟨rfl, round3 (if lab = "LABEL_0" then 1 - conf else conf), rfl,
      (round3_mem_unit _ hp0 hp1).1, (round3_mem_unit _ hp0 hp1).2⟩⟩

/-- C8 counterexample: a successful model-backed analysis returns a dict
with NO `fallback_mode` key, refuting "the fallback_mode boolean is
present in every result". -/
theorem c8_missing_fallback_mode_counterexample :
    (analyze_text [] ⟨true, some ("LABEL_1", 1/2)⟩ ⟨false, true, []⟩
        (some "hello".toList)).result.error = none ∧
    (analyze_text [] ⟨true, some ("LABEL_1", 1/2)⟩ ⟨false, true, []⟩
        (some "hello".toList)).result.fallback_mode = none := by
  with_unfolding_all decide

/-- C8 (amended): every successful (non-error) result has all of: score an
integer in `[0, 100]`, label among {reliable, suspicious, fake},
`patterns_detected` and `text_length` keys present; on the fallback path
the `fallback_mode` key is present with value true and `model_confidence`
is a present null; on the model-backed path `model_confidence` is present
with a value in `[0, 1]` and the `fallback_mode` key is ABSENT (not
present-and-false as claimed). -/
theorem c8_result_fields (rules : List (String × (List Char → Bool)))
    (env : CallEnv) (st : DState) (input : Option (List Char))
    (hconf : ∀ lab conf, env.infer = some (lab, conf) → 0 ≤ conf ∧ conf ≤ 1)
    (hstore : ∀ k r, (k, r) ∈ st.store → GoodResult r)
    (herr : (analyze_text rules env st input).result.error = none) :
    GoodResult (analyze_text rules env st input).result := by
  by_cases h : sanitize_input input = []
  · rw [analyze_invalid rules env st input h] at herr
    simp [invalid_result] at herr
  · rcases hcg : cache_get st (sanitize_input input) with _ | r
    · rcases hload : (st.model_loaded || env.load_ok) with _ | _
      · rw [analyze_fallback_unloaded rules env st input h hcg hload]
        exact fallback_good rules _
      · rcases hi : env.infer with _ | ⟨lab, conf⟩
        · rw [analyze_fallback_raise rules env st input h hcg hload hi]
          exact fallback_good rules _
        · rw [analyze_model rules env st input lab conf h hcg hload hi]
          obtain ⟨h0, h1⟩ := hconf lab conf hi
          exact model_result_good rules _ lab conf h0 h1
    · rw [analyze_hit rules env st input r h hcg]
      exact hstore _ r (cache_get_some_mem st _ r hcg)

/-- C8 witness: the amended statement at a concrete model-backed call. -/
theorem c8_result_fields_witness :
    GoodResult (analyze_text [] ⟨true, some ("LABEL_1", 1/2)⟩ ⟨false, true, []⟩
      (some "hello".toList)).result :=
  c8_result_fields [] ⟨true, some ("LABEL_1", 1/2)⟩ ⟨false, true, []⟩
    (some "hello".toList)
    (fun lab conf hlc => by
      obtain ⟨rfl, rfl⟩ : lab = "LABEL_1" ∧ conf = (1/2 : ℚ) := by
        simpa using hlc.symm
      norm_num)
    (by simp)
    (by with_unfolding_all decide)

/-! ## Claim C10 -/

/-- C10: input sanitizing to empty yields exactly the record with score 0,
label `unknown` (outside the documented label set), reason
`invalid_input` and an `error` key, while every result computed by a
successful analysis (over an error-free store) carries no `error` key, so
the invalid-input record is distinguishable from every valid one by that
field. -/
theorem c10_invalid_result_shape (rules : List (String × (List Char → Bool)))
    (env : CallEnv) (st : DState) (input : Option (List Char)) :
    (sanitize_input input = [] →
      (analyze_text rules env st input).result = invalid_result) ∧
    invalid_result.score = 0 ∧
    invalid_result.label = "unknown" ∧
    invalid_result.reason = "invalid_input" ∧
    invalid_result.error = some "Invalid or empty text input" ∧
    invalid_result.label ∉ (["reliable", "suspicious", "fake"] : List String) ∧
    ((∀ k r, (k, r) ∈ st.store → r.error = none) →
      sanitize_input input ≠ [] →
      (analyze_text rules env st input).result.error = none) := by
  refine ⟨fun h => ?_, rfl, rfl, rfl, rfl, by decide,
    fun hstore h => analyze_error_none rules env st input hstore h⟩
  rw [analyze_invalid rules env st input h]

/-- C10 witness: a null (non-text) input at a concrete call. -/
theorem c10_invalid_result_shape_witness :
    (analyze_text [] ⟨false, none⟩ ⟨false, true, []⟩ none).result = invalid_result :=
  (c10_invalid_result_shape [] ⟨false, none⟩ ⟨false, true, []⟩ none).1 rfl

/-! ## Claim C9 -/

/-- C9: the fallback score always lies in `{20, 70, 80, 90}` (in
particular never in `[60, 70)`), and each of the four values is attained:
by zero, one, two and three detected signals respectively. -/
theorem c9_fallback_score_values :
    (∀ (rules : List (String × (List Char → Bool))) (text : List Char),
      (fallback_analysis rules text).score = 20 ∨
      (fallback_analysis rules text).score = 70 ∨
      (fallback_analysis rules text).score = 80 ∨
      (fallback_analysis rules text).score = 90) ∧
    (fallback_analysis [] []).score = 20 ∧
    (fallback_analysis [("a", fun _ => true)] []).score = 70 ∧
    (fallback_analysis [("a", fun _ => true), ("b", fun _ => true)] []).score = 80 ∧
    (fallback_analysis
        [("a", fun _ => true), ("b", fun _ => true), ("c", fun _ => true)]
        []).score = 90 :=
  ⟨fun rules text => fallback_score_cases rules text,
   by decide, by decide, by decide, by decide⟩

end FakeNews
